import Mathlib

/-!
Verification of the mflow-be queue and care-session lifecycle engine.

Shallow embedding of the queue core of the repository:
the `QueueService` (queue-number allocation, status transitions,
medical-record-number allocation, waiting-queue snapshots, broadcast
events) and the `TreatmentService` (applied-price snapshots).

The persistence collaborator (Prisma over PostgreSQL) is modelled as an
explicit in-memory store passed through each operation; the real-time
gateway, whose file (`src/queue/queue.gateway.ts`) is not part of the
given sources, is modelled from the specification as a total
publish-recording function.  Timestamps are naturals counting
milliseconds, matching the JavaScript `Date` arithmetic that the source
uses through `date-fns`.
-/

/-! ## JavaScript primitives used by the source -/

/-- JavaScript `String(n)` / `n.toString()` for a natural number:
most-significant-first decimal digits. -/
def natDigits (n : Nat) : List Char :=
  if n < 10 then [Nat.digitChar n]
  else natDigits (n / 10) ++ [Nat.digitChar (n % 10)]
  termination_by n
  decreasing_by exact Nat.div_lt_self (by omega) (by omega)

/-- JavaScript `s.padStart(len, c)`: pad on the left up to `len`
characters; a string already at least `len` long is returned unchanged. -/
def jsPadStart (s : String) (len : Nat) (c : Char) : String :=
  if len ≤ s.length then s
  else ⟨List.replicate (len - s.length) c ++ s.data⟩

/-- Leading decimal digits of a character list, JavaScript `parseInt`
style: `none` when the first character is not a digit. -/
def jsLeadingDigits (l : List Char) : Option Nat :=
  match l with
  | [] => none
  | c :: _ =>
    if c.isDigit then
      some ((l.takeWhile Char.isDigit).foldl (fun a d => a * 10 + (d.toNat - 48)) 0)
    else none

/-- JavaScript `parseInt(s, 10)`: optional leading minus sign followed by
decimal digits; `none` models `NaN`. -/
def jsParseInt (s : String) : Option Int :=
  match s.data with
  | '-' :: rest => (jsLeadingDigits rest).map (fun n => -(n : Int))
  | l => (jsLeadingDigits l).map (fun n => (n : Int))

/-- JavaScript `parseInt(s, 10)` restricted to the non-negative results
the medical-record code path feeds it (digit-only strings). -/
def jsParseIntNat (s : String) : Option Nat := jsLeadingDigits s.data

/-! ## Data model

`CareSession` and `Patient` carry the fields the queue core reads or
writes (prisma/schema.prisma for these models is not among the given
sources; the field set follows the accesses made in
`src/src/common/error.filter.ts`). -/

/-- Queue lifecycle status, enum `QueueStatus` of the Prisma schema. -/
inductive QueueStatus where
  | WAITING_CONSULTATION
  | IN_CONSULTATION
  | WAITING_MEDICATION
  | WAITING_PAYMENT
  | COMPLETED
deriving DecidableEq, Repr

/-- A care-session row. `created_at` is a millisecond timestamp. -/
structure CareSession where
  id : Nat
  queue_number : String
  status : QueueStatus
  doctor_id : String
  room_id : Nat
  patient_id : Option Nat
  complaints : String
  diagnosis : Option String
  created_at : Nat
deriving DecidableEq, Repr

/-- A patient row, reduced to the fields the queue core touches. -/
structure Patient where
  id : Nat
  medical_record_number : Option String
deriving DecidableEq, Repr

/-- A treatment catalog row (`model Treatment`). -/
structure Treatment where
  id : Nat
  name : String
  price : Int
deriving DecidableEq, Repr

/-- A `CareSessionTreatment` row: an applied treatment with its price
snapshot. -/
structure CareSessionTreatment where
  care_session_id : Nat
  treatment_id : Nat
  quantity : Nat
  applied_price : Int
deriving DecidableEq, Repr

/-- The relational store as seen by the queue core. `nextSessionId` and
`nextPatientId` model the store-assigned autoincrement ids. -/
structure Store where
  sessions : List CareSession
  patients : List Patient
  nextSessionId : Nat
  nextPatientId : Nat
deriving Repr

/-- Outbound events of the notification broadcaster. -/
inductive Event where
  | waitingQueue (snapshot : List (Nat × String × String × Nat))
  | calledQueue (id : Nat) (queue_number : String)
deriving DecidableEq, Repr

/-- Service-level error: an `HttpException(message, status)`. -/
inductive SvcError where
  | http (message : String) (status : Nat)
deriving DecidableEq, Repr

/-- Result of one service call: the returned value or error, the store
after the call, the published events and the log lines. -/
structure OpResult (ρ : Type) where
  res : Except SvcError ρ
  store : Store
  events : List Event
  logs : List String

/-- Injectable persistence failures, used to model a throwing Prisma
call inside `QueueService.add`: `some msg` makes the corresponding step
throw an error with message `msg`. -/
structure DbFail where
  patientCreate : Option String := none
  countSessions : Option String := none
  sessionCreate : Option String := none

/-- The all-succeeding persistence layer. -/
def DbFail.none' : DbFail := {}

/-! ## Notification broadcaster

Modelled from the spec: `QueueGateway` (`src/queue/queue.gateway.ts` is
not among the given sources).  Per spec section 4.3, publishes are
fire-and-forget: a transport failure is logged and swallowed and never
thrown to the caller.  `gwFail` says whether the underlying transport
fails; it can only add a log line, never change control flow. -/

/-- Modelled from the spec: the transport send of one event, which can
fail. -/
def QueueGateway.transportSend (gwFail : Bool) : Except String Unit :=
  if gwFail then .error "socket emit failed" else .ok ()

/-- Modelled from the spec: `emitWaitingQueueUpdate` publishes the
waiting-queue snapshot; failures are logged and swallowed. -/
def QueueGateway.emitWaitingQueueUpdate (gwFail : Bool)
    (snapshot : List (Nat × String × String × Nat)) : List Event × List String :=
  match QueueGateway.transportSend gwFail with
  | .ok _ => ([Event.waitingQueue snapshot], [])
  | .error msg => ([Event.waitingQueue snapshot], [msg])

/-- Modelled from the spec: `emitCalledQueueUpdate` publishes
`(id, queue_number)`; failures are logged and swallowed. -/
def QueueGateway.emitCalledQueueUpdate (gwFail : Bool)
    (id : Nat) (qn : String) : List Event × List String :=
  match QueueGateway.transportSend gwFail with
  | .ok _ => ([Event.calledQueue id qn], [])
  | .error msg => ([Event.calledQueue id qn], [msg])

/-! ## Sequence allocator: daily queue numbers
(`QueueService.generateQueueNumber`, error.filter.ts lines 426-445) -/

/-- Milliseconds per day. -/
def msPerDay : Nat := 86400000

/-- `startOfDay(new Date())` (date-fns), in the millisecond model. -/
def startOfDay (t : Nat) : Nat := t / msPerDay * msPerDay

/-- `endOfDay(new Date())` (date-fns): last millisecond of the day. -/
def endOfDay (t : Nat) : Nat := startOfDay t + (msPerDay - 1)

/-- The queue-number string `U` + 3-digit zero-padded `n`
(line 444 of error.filter.ts).  `Nat.repr` is the JavaScript
`String(n)`. -/
def fmtQueueNumber (n : Nat) : String :=
  "U" ++ jsPadStart (Nat.repr n) 3 '0'

/-- `prismaService.careSession.count` with the
`created_at: { gte: todayStart, lte: todayEnd }` filter. -/
def countToday (st : Store) (now : Nat) : Nat :=
  (st.sessions.filter
    (fun s => decide (startOfDay now ≤ s.created_at ∧ s.created_at ≤ endOfDay now))).length

/-- `QueueService.generateQueueNumber` (lines 426-445): count the
sessions created today, add 1, fail over 999, format as `U###`. -/
def QueueService.generateQueueNumber (f : DbFail) (st : Store) (now : Nat) :
    Except String String :=
  match f.countSessions with
  | some msg => .error msg
  | none =>
    let nextNumber := countToday st now + 1
    if nextNumber > 999 then .error "Queue limit exceeded for today"
    else .ok (fmtQueueNumber nextNumber)

/-! ## Waiting-queue snapshot
(`QueueService.getWaitingQueuesData`, error.filter.ts lines 447-467) -/

/-- The sessions with status `WAITING_CONSULTATION` ordered by
`created_at` ascending, as the `findMany` of lines 448-459 returns
them. -/
def waitingSessions (st : Store) : List CareSession :=
  (st.sessions.filter (fun s => s.status == .WAITING_CONSULTATION)).mergeSort
    (fun a b => decide (a.created_at ≤ b.created_at))

/-- `QueueService.getWaitingQueuesData` (lines 447-467): project each
waiting session to `(id, doctor, queue_number, room)`. -/
def QueueService.getWaitingQueuesData (st : Store) :
    List (Nat × String × String × Nat) :=
  (waitingSessions st).map (fun s => (s.id, s.doctor_id, s.queue_number, s.room_id))

/-! ## Create (`QueueService.add`, error.filter.ts lines 469-515) -/

/-- The `AddQueueDto` fields the service reads (queue.model.ts is not
among the given sources; the field set follows the accesses in
`QueueService.add`). -/
structure AddQueueDto where
  doctor_id : String
  room_id : Nat
  complaints : String
  patient_id : Option Nat := none
  patient_data : Option Unit := none

/-- Lines 480-492 of `QueueService.add`: when no `patient_id` is given
and inline `patient_data` is, create the patient first; the resolved
patient id and the store after this step. -/
def patientStep (f : DbFail) (st : Store) (dto : AddQueueDto) :
    Except String (Option Nat × Store) :=
  if dto.patient_id.isNone && dto.patient_data.isSome then
    match f.patientCreate with
    | some msg => .error msg
    | none =>
      .ok (some st.nextPatientId,
        { st with
          patients := st.patients ++ [{ id := st.nextPatientId, medical_record_number := none }],
          nextPatientId := st.nextPatientId + 1 })
  else .ok (dto.patient_id, st)

/-- `QueueService.add` (lines 469-515): resolve or create the patient,
allocate a queue number, insert a session in `WAITING_CONSULTATION`,
publish the waiting snapshot; any thrown error is caught and rethrown
as `HttpException(error.message, 400)`. -/
def QueueService.add (gwFail : Bool) (f : DbFail) (st : Store) (now : Nat)
    (dto : AddQueueDto) : OpResult CareSession :=
  match patientStep f st dto with
  | .error msg => ⟨.error (.http msg 400), st, [], []⟩
  | .ok (patientId, st₁) =>
    match QueueService.generateQueueNumber f st₁ now with
    | .error msg => ⟨.error (.http msg 400), st₁, [], []⟩
    | .ok queueNumber =>
      match f.sessionCreate with
      | some msg => ⟨.error (.http msg 400), st₁, [], []⟩
      | none =>
        let s : CareSession :=
          { id := st₁.nextSessionId
            queue_number := queueNumber
            status := .WAITING_CONSULTATION
            doctor_id := dto.doctor_id
            room_id := dto.room_id
            patient_id := patientId
            complaints := dto.complaints
            diagnosis := none
            created_at := now }
        let st₂ := { st₁ with
          sessions := st₁.sessions ++ [s], nextSessionId := st₁.nextSessionId + 1 }
        let em := QueueGateway.emitWaitingQueueUpdate gwFail
          (QueueService.getWaitingQueuesData st₂)
        ⟨.ok s, st₂, em.1, em.2⟩

/-! ## Medical-record-number allocation
(inline in `QueueService.update`, error.filter.ts lines 768-803) -/

/-- JavaScript `s.replace(/\./g, '')`: drop every dot. -/
def stripDots (s : String) : String :=
  ⟨s.data.filter (fun c => c ≠ '.')⟩

/-- JavaScript `s.replace(/(\d{2})(\d{2})(\d{2})/, '$1.$2.$3')`: group
the leftmost run of six digits in pairs separated by dots. -/
def groupSixAux : List Char → List Char
  | c1 :: c2 :: c3 :: c4 :: c5 :: c6 :: rest =>
    if c1.isDigit && c2.isDigit && c3.isDigit && c4.isDigit && c5.isDigit && c6.isDigit then
      c1 :: c2 :: '.' :: c3 :: c4 :: '.' :: c5 :: c6 :: rest
    else c1 :: groupSixAux (c2 :: c3 :: c4 :: c5 :: c6 :: rest)
  | l => l

/-- Lines 794-797: `nextNumber.toString().padStart(6, '0')` grouped in
pairs by the regex replace. -/
def mrFormat (n : Nat) : String :=
  ⟨groupSixAux (jsPadStart (Nat.repr n) 6 '0').data⟩

/-- The `findFirst` of lines 773-783: the greatest non-null
`medical_record_number` in the string (database) order. -/
def lastMrNumber (ps : List Patient) : Option String :=
  (ps.filterMap (fun p => p.medical_record_number)).max?

/-- Lines 785-792: strip the separators of the greatest existing
number, parse as an integer and add 1; start at 1 when no patient has a
(truthy, i.e. non-empty) number. -/
def nextMrNumber (ps : List Patient) : Nat :=
  match lastMrNumber ps with
  | some m => if m = "" then 1 else (jsParseIntNat (stripDots m)).getD 0 + 1
  | none => 1

/-! ## Transition (`QueueService.update`, error.filter.ts lines 743-824) -/

/-- The `UpdateQueueDto` fields relevant to the lifecycle
(queue.model.ts is not among the given sources; per spec section 4.2 a
transition carries the new status and optional clinical fields). -/
structure UpdateQueueDto where
  status : Option QueueStatus := none
  diagnosis : Option String := none

/-- The `careSession.update` data application: fields present in the
request replace the stored ones. -/
def applyUpdateDto (s : CareSession) (dto : UpdateQueueDto) : CareSession :=
  { s with
    status := dto.status.getD s.status
    diagnosis := match dto.diagnosis with | some d => some d | none => s.diagnosis }

/-- `QueueService.update` (lines 743-824): parse the id, update the
session (P2025 becomes a 404), on a `COMPLETED` request give the linked
patient a first medical-record number, publish the waiting snapshot,
and publish a called event when the resulting status is
`IN_CONSULTATION`. -/
def QueueService.update (gwFail : Bool) (st : Store) (id : String)
    (dto : UpdateQueueDto) : OpResult CareSession :=
  match jsParseInt id with
  | none => ⟨.error (.http "Invalid ID type" 400), st, [], []⟩
  | some numericId =>
    match st.sessions.find? (fun s => (s.id : Int) == numericId) with
    | none => ⟨.error (.http "Data pelayanan tidak ditemukan!" 404), st, [], []⟩
    | some s0 =>
      let res := applyUpdateDto s0 dto
      let st₁ := { st with
        sessions := st.sessions.map (fun t => if t.id == s0.id then res else t) }
      let resPatient : Option Patient :=
        match res.patient_id with
        | none => none
        | some pid => st₁.patients.find? (fun q => q.id == pid)
      let st₂ :=
        match dto.status, resPatient with
        | some .COMPLETED, some p =>
          if p.medical_record_number.isNone then
            let formatted := mrFormat (nextMrNumber st₁.patients)
            { st₁ with
              patients := st₁.patients.map (fun q =>
                if some q.id == res.patient_id then
                  { q with medical_record_number := some formatted }
                else q) }
          else st₁
        | _, _ => st₁
      let em₁ := QueueGateway.emitWaitingQueueUpdate gwFail
        (QueueService.getWaitingQueuesData st₂)
      let em₂ :=
        if res.status == .IN_CONSULTATION then
          QueueGateway.emitCalledQueueUpdate gwFail res.id res.queue_number
        else ([], [])
      ⟨.ok res, st₂, em₁.1 ++ em₂.1, em₁.2 ++ em₂.2⟩

/-! ## Treatment service
(`TreatmentService`, auth.service.ts lines 122-321) -/

/-- The treatment-side store: the catalog and the applied rows. -/
structure TreatStore where
  treatments : List Treatment
  sessionTreatments : List CareSessionTreatment
deriving Repr

/-- Result of a treatment-service call. -/
structure TreatResult (ρ : Type) where
  res : Except SvcError ρ
  store : TreatStore

/-- One requested item of `AddSessionTreatmentDto`. -/
structure SessionTreatmentItem where
  treatment_id : Nat
  quantity : Nat

/-- `AddSessionTreatmentDto` (treatment.model.ts is not among the given
sources; the field set follows the accesses in
`addSessionTreatments`). -/
structure AddSessionTreatmentDto where
  care_session_id : Nat
  treatments : List SessionTreatmentItem

/-- The price lookup of lines 153-159: `priceMap.get(id)` over the
catalog rows found by `findMany`. -/
def priceOf (ts : List Treatment) (tid : Nat) : Option Int :=
  (ts.find? (fun t => t.id == tid)).map (fun t => t.price)

/-- `TreatmentService.addSessionTreatments` (auth.service.ts lines
145-182): snapshot each requested treatment's catalog price (0 when the
id is not in the catalog) and insert the rows in one transaction. -/
def TreatmentService.addSessionTreatments (st : TreatStore)
    (dto : AddSessionTreatmentDto) : TreatResult (List CareSessionTreatment) :=
  let created := dto.treatments.map (fun it =>
    { care_session_id := dto.care_session_id
      treatment_id := it.treatment_id
      quantity := it.quantity
      applied_price := (priceOf st.treatments it.treatment_id).getD 0 })
  ⟨.ok created, { st with sessionTreatments := st.sessionTreatments ++ created }⟩

/-- The `UpdateTreatmentDto` fields (name and catalog price). -/
structure UpdateTreatmentDto where
  name : Option String := none
  price : Option Int := none

/-- `TreatmentService.update` (auth.service.ts lines 258-292): parse
the id, update the catalog row, P2025 becomes a 404. -/
def TreatmentService.update (st : TreatStore) (id : String)
    (dto : UpdateTreatmentDto) : TreatResult Treatment :=
  match jsParseInt id with
  | none => ⟨.error (.http "Invalid ID format" 400), st⟩
  | some numericId =>
    match st.treatments.find? (fun t => (t.id : Int) == numericId) with
    | none => ⟨.error (.http "Data penanganan tidak ditemukan!" 404), st⟩
    | some t0 =>
      let t1 : Treatment :=
        { t0 with name := dto.name.getD t0.name, price := dto.price.getD t0.price }
      ⟨.ok t1,
       { st with treatments := st.treatments.map (fun t => if t.id == t0.id then t1 else t) }⟩

/-! ## Sequential create runs (for the daily-numbering property) -/

/-- Run a list of create calls strictly sequentially, each with its own
dto and timestamp, collecting each call's returned queue number. -/
def runCreates (st : Store) : List (AddQueueDto × Nat) →
    List (Except SvcError String) × Store
  | [] => ([], st)
  | (dto, t) :: rest =>
    let r := QueueService.add false DbFail.none' st t dto
    let (others, final) := runCreates r.store rest
    ((r.res.map (fun s => s.queue_number)) :: others, final)

/-- The number of sessions created within the day starting at `d`
(`d` a day-start timestamp). -/
def countWindow (st : Store) (d : Nat) : Nat :=
  (st.sessions.filter
    (fun s => decide (d ≤ s.created_at ∧ s.created_at ≤ d + (msPerDay - 1)))).length

/-- Recognizer for waiting-queue publishes. -/
def isWaitingEvent : Event → Bool
  | .waitingQueue _ => true
  | _ => false

/-- Recognizer for called-queue publishes. -/
def isCalledEvent : Event → Bool
  | .calledQueue _ _ => true
  | _ => false

/-! ## Decimal-digit characterization lemmas -/

theorem natDigits_lt10 {n : Nat} (h : n < 10) : natDigits n = [Nat.digitChar n] := by
  rw [natDigits]
  simp [h]

theorem natDigits_ge10 {n : Nat} (h : 10 ≤ n) :
    natDigits n = natDigits (n / 10) ++ [Nat.digitChar (n % 10)] := by
  rw [natDigits]
  simp [Nat.not_lt.mpr h]

theorem toDigitsCore_eq : ∀ (fuel n : Nat) (ds : List Char), n < fuel →
    Nat.toDigitsCore 10 fuel n ds = natDigits n ++ ds
  | 0, _, _, h => absurd h (Nat.not_lt_zero _)
  | fuel + 1, n, ds, h => by
    unfold Nat.toDigitsCore
    by_cases h10 : n / 10 = 0
    · have hn : n < 10 := by omega
      simp [h10, natDigits_lt10 hn, Nat.mod_eq_of_lt hn]
    · have hn : 10 ≤ n := by omega
      have hlt : n / 10 < fuel := by
        have := Nat.div_lt_self (by omega : 0 < n) (by omega : 1 < 10)
        omega
      simp only [h10, if_false]
      rw [toDigitsCore_eq fuel (n / 10) _ hlt, natDigits_ge10 hn, List.append_assoc]
      rfl

theorem repr_data (n : Nat) : (Nat.repr n).data = natDigits n := by
  show (Nat.toDigits 10 n).asString.data = natDigits n
  unfold Nat.toDigits
  rw [toDigitsCore_eq (n + 1) n [] (Nat.lt_succ_self n)]
  simp [List.asString]

theorem string_length_data (s : String) : s.length = s.data.length := rfl

theorem digitChar_lt_iff :
    ∀ a < 10, ∀ b < 10, (Nat.digitChar a < Nat.digitChar b ↔ a < b) := by decide

theorem digitChar_inj : ∀ a < 10, ∀ b < 10, Nat.digitChar a = Nat.digitChar b → a = b := by
  decide

theorem digitChar_isDigit : ∀ a < 10, (Nat.digitChar a).isDigit = true := by decide

theorem digitChar_ne_dot : ∀ a < 10, Nat.digitChar a ≠ '.' := by decide

theorem digitChar_toNat : ∀ a < 10, (Nat.digitChar a).toNat = 48 + a := by decide

/-- The three characters of the zero-padded queue-number body. -/
def threeDigits (n : Nat) : List Char :=
  [Nat.digitChar (n / 100 % 10), Nat.digitChar (n / 10 % 10), Nat.digitChar (n % 10)]

theorem jsPadStart3_data {n : Nat} (h : n ≤ 999) :
    (jsPadStart (Nat.repr n) 3 '0').data = threeDigits n := by
  have hlen : (Nat.repr n).length = (natDigits n).length := by
    rw [string_length_data, repr_data]
  rcases Nat.lt_or_ge n 10 with h10 | h10
  · have hd : natDigits n = [Nat.digitChar n] := natDigits_lt10 h10
    have : ¬ 3 ≤ (Nat.repr n).length := by rw [hlen, hd]; simp
    unfold jsPadStart
    rw [if_neg this, hlen, hd, repr_data, hd]
    have e1 : n / 100 % 10 = 0 := by omega
    have e2 : n / 10 % 10 = 0 := by omega
    have e3 : n % 10 = n := by omega
    simp [threeDigits, e1, e2, e3, List.replicate]
    rfl
  · rcases Nat.lt_or_ge n 100 with h100 | h100
    · have hq : n / 10 < 10 := by omega
      have hd : natDigits n = [Nat.digitChar (n / 10), Nat.digitChar (n % 10)] := by
        rw [natDigits_ge10 h10, natDigits_lt10 hq]
        rfl
      have : ¬ 3 ≤ (Nat.repr n).length := by rw [hlen, hd]; simp
      unfold jsPadStart
      rw [if_neg this, hlen, hd, repr_data, hd]
      have e1 : n / 100 % 10 = 0 := by omega
      have e2 : n / 10 % 10 = n / 10 := by omega
      simp [threeDigits, e1, e2, List.replicate]
      rfl
    · have hq1 : 10 ≤ n / 10 := by omega
      have hq2 : n / 10 / 10 < 10 := by omega
      have hdd : n / 10 / 10 = n / 100 := by omega
      have hd : natDigits n =
          [Nat.digitChar (n / 100), Nat.digitChar (n / 10 % 10), Nat.digitChar (n % 10)] := by
        rw [natDigits_ge10 h10, natDigits_ge10 hq1, natDigits_lt10 hq2, hdd]
        rfl
      have : 3 ≤ (Nat.repr n).length := by rw [hlen, hd]; simp
      unfold jsPadStart
      rw [if_pos this, repr_data, hd]
      have e1 : n / 100 % 10 = n / 100 := by omega
      simp [threeDigits, e1]

theorem data_append (a b : String) : (a ++ b).data = a.data ++ b.data := rfl

/-- The six characters of the zero-padded medical-record body, most
significant first. -/
def sixDigits (n : Nat) : List Char :=
  [Nat.digitChar (n / 100000 % 10), Nat.digitChar (n / 10000 % 10),
   Nat.digitChar (n / 1000 % 10), Nat.digitChar (n / 100 % 10),
   Nat.digitChar (n / 10 % 10), Nat.digitChar (n % 10)]

theorem natDigits_digits2 {n : Nat} (h1 : 10 ≤ n) (h2 : n < 100) :
    natDigits n = [Nat.digitChar (n / 10), Nat.digitChar (n % 10)] := by
  rw [natDigits_ge10 h1, natDigits_lt10 (by omega : n / 10 < 10)]
  rfl

theorem natDigits_digits3 {n : Nat} (h1 : 100 ≤ n) (h2 : n < 1000) :
    natDigits n =
      [Nat.digitChar (n / 100), Nat.digitChar (n / 10 % 10), Nat.digitChar (n % 10)] := by
  rw [natDigits_ge10 (by omega : 10 ≤ n),
    natDigits_digits2 (by omega : 10 ≤ n / 10) (by omega : n / 10 < 100),
    (by omega : n / 10 / 10 = n / 100), (by omega : n / 10 % 10 = n / 10 % 10)]
  rfl

theorem natDigits_digits4 {n : Nat} (h1 : 1000 ≤ n) (h2 : n < 10000) :
    natDigits n =
      [Nat.digitChar (n / 1000), Nat.digitChar (n / 100 % 10),
       Nat.digitChar (n / 10 % 10), Nat.digitChar (n % 10)] := by
  rw [natDigits_ge10 (by omega : 10 ≤ n),
    natDigits_digits3 (by omega : 100 ≤ n / 10) (by omega : n / 10 < 1000),
    (by omega : n / 10 / 100 = n / 1000), (by omega : n / 10 / 10 % 10 = n / 100 % 10)]
  rfl

theorem natDigits_digits5 {n : Nat} (h1 : 10000 ≤ n) (h2 : n < 100000) :
    natDigits n =
      [Nat.digitChar (n / 10000), Nat.digitChar (n / 1000 % 10),
       Nat.digitChar (n / 100 % 10), Nat.digitChar (n / 10 % 10),
       Nat.digitChar (n % 10)] := by
  rw [natDigits_ge10 (by omega : 10 ≤ n),
    natDigits_digits4 (by omega : 1000 ≤ n / 10) (by omega : n / 10 < 10000),
    (by omega : n / 10 / 1000 = n / 10000), (by omega : n / 10 / 100 % 10 = n / 1000 % 10),
    (by omega : n / 10 / 10 % 10 = n / 100 % 10)]
  rfl

theorem natDigits_digits6 {n : Nat} (h1 : 100000 ≤ n) (h2 : n < 1000000) :
    natDigits n =
      [Nat.digitChar (n / 100000), Nat.digitChar (n / 10000 % 10),
       Nat.digitChar (n / 1000 % 10), Nat.digitChar (n / 100 % 10),
       Nat.digitChar (n / 10 % 10), Nat.digitChar (n % 10)] := by
  rw [natDigits_ge10 (by omega : 10 ≤ n),
    natDigits_digits5 (by omega : 10000 ≤ n / 10) (by omega : n / 10 < 100000),
    (by omega : n / 10 / 10000 = n / 100000), (by omega : n / 10 / 1000 % 10 = n / 10000 % 10),
    (by omega : n / 10 / 100 % 10 = n / 1000 % 10), (by omega : n / 10 / 10 % 10 = n / 100 % 10)]
  rfl

theorem jsPadStart6_data {n : Nat} (h : n ≤ 999999) :
    (jsPadStart (Nat.repr n) 6 '0').data = sixDigits n := by
  have hlen : (Nat.repr n).length = (natDigits n).length := by
    rw [string_length_data, repr_data]
  rcases Nat.lt_or_ge n 10 with hr | hr
  · have hd := natDigits_lt10 hr
    unfold jsPadStart
    rw [if_neg (by rw [hlen, hd]; simp), hlen, hd, repr_data, hd]
    simp only [sixDigits]
    rw [(by omega : n / 100000 % 10 = 0), (by omega : n / 10000 % 10 = 0),
      (by omega : n / 1000 % 10 = 0), (by omega : n / 100 % 10 = 0),
      (by omega : n / 10 % 10 = 0), (by omega : n % 10 = n)]
    rfl
  rcases Nat.lt_or_ge n 100 with hr2 | hr2
  · have hd := natDigits_digits2 hr hr2
    unfold jsPadStart
    rw [if_neg (by rw [hlen, hd]; simp), hlen, hd, repr_data, hd]
    simp only [sixDigits]
    rw [(by omega : n / 100000 % 10 = 0), (by omega : n / 10000 % 10 = 0),
      (by omega : n / 1000 % 10 = 0), (by omega : n / 100 % 10 = 0),
      (by omega : n / 10 % 10 = n / 10)]
    rfl
  rcases Nat.lt_or_ge n 1000 with hr3 | hr3
  · have hd := natDigits_digits3 hr2 hr3
    unfold jsPadStart
    rw [if_neg (by rw [hlen, hd]; simp), hlen, hd, repr_data, hd]
    simp only [sixDigits]
    rw [(by omega : n / 100000 % 10 = 0), (by omega : n / 10000 % 10 = 0),
      (by omega : n / 1000 % 10 = 0), (by omega : n / 100 % 10 = n / 100)]
    rfl
  rcases Nat.lt_or_ge n 10000 with hr4 | hr4
  · have hd := natDigits_digits4 hr3 hr4
    unfold jsPadStart
    rw [if_neg (by rw [hlen, hd]; simp), hlen, hd, repr_data, hd]
    simp only [sixDigits]
    rw [(by omega : n / 100000 % 10 = 0), (by omega : n / 10000 % 10 = 0),
      (by omega : n / 1000 % 10 = n / 1000)]
    rfl
  rcases Nat.lt_or_ge n 100000 with hr5 | hr5
  · have hd := natDigits_digits5 hr4 hr5
    unfold jsPadStart
    rw [if_neg (by rw [hlen, hd]; simp), hlen, hd, repr_data, hd]
    simp only [sixDigits]
    rw [(by omega : n / 100000 % 10 = 0), (by omega : n / 10000 % 10 = n / 10000)]
    rfl
  · have hd := natDigits_digits6 hr5 (by omega)
    unfold jsPadStart
    rw [if_pos (by rw [hlen, hd]; simp), repr_data, hd]
    simp only [sixDigits]
    rw [(by omega : n / 100000 % 10 = n / 100000)]

theorem groupSixAux_digits {c1 c2 c3 c4 c5 c6 : Char}
    (h : (c1.isDigit && c2.isDigit && c3.isDigit && c4.isDigit && c5.isDigit && c6.isDigit) = true) :
    groupSixAux [c1, c2, c3, c4, c5, c6] = [c1, c2, '.', c3, c4, '.', c5, c6] := by
  unfold groupSixAux
  rw [if_pos h]

theorem mrFormat_data {n : Nat} (h : n ≤ 999999) :
    (mrFormat n).data =
      [Nat.digitChar (n / 100000 % 10), Nat.digitChar (n / 10000 % 10), '.',
       Nat.digitChar (n / 1000 % 10), Nat.digitChar (n / 100 % 10), '.',
       Nat.digitChar (n / 10 % 10), Nat.digitChar (n % 10)] := by
  show (groupSixAux (jsPadStart (Nat.repr n) 6 '0').data) = _
  rw [jsPadStart6_data h]
  exact groupSixAux_digits (by
    rw [digitChar_isDigit _ (by omega), digitChar_isDigit _ (by omega),
      digitChar_isDigit _ (by omega), digitChar_isDigit _ (by omega),
      digitChar_isDigit _ (by omega), digitChar_isDigit _ (by omega)]
    rfl)

theorem fmtQueueNumber_data {n : Nat} (h : n ≤ 999) :
    (fmtQueueNumber n).data = 'U' :: threeDigits n := by
  show ("U" ++ jsPadStart (Nat.repr n) 3 '0').data = _
  rw [data_append, jsPadStart3_data h]
  rfl

theorem fmtQueueNumber_inj {m n : Nat} (hm : m ≤ 999) (hn : n ≤ 999)
    (h : fmtQueueNumber m = fmtQueueNumber n) : m = n := by
  have hd : (fmtQueueNumber m).data = (fmtQueueNumber n).data := by rw [h]
  rw [fmtQueueNumber_data hm, fmtQueueNumber_data hn] at hd
  simp only [threeDigits, List.cons.injEq, and_true] at hd
  obtain ⟨-, h1, h2, h3⟩ := hd
  have e1 := digitChar_inj _ (by omega) _ (by omega) h1
  have e2 := digitChar_inj _ (by omega) _ (by omega) h2
  have e3 := digitChar_inj _ (by omega) _ (by omega) h3
  omega

/-! ## String-order and parsing lemmas for medical-record numbers -/

theorem digitChar_not_lt_self : ∀ a < 10, ¬ Nat.digitChar a < Nat.digitChar a := by decide

theorem dot_not_lt_dot : ¬ ('.' : Char) < '.' := by decide

theorem mod10_lt (x : Nat) : x % 10 < 10 := Nat.mod_lt x (by norm_num)

/-- The medical-record format is strictly monotone in the database
string order. -/
theorem mrFormat_lt {a b : Nat} (hb : b ≤ 999999) (hab : a < b) :
    mrFormat a < mrFormat b := by
  have ha : a ≤ 999999 := by omega
  rw [String.lt_iff_toList_lt]
  show (mrFormat a).data < (mrFormat b).data
  rw [mrFormat_data ha, mrFormat_data hb]
  rcases Nat.lt_trichotomy (a / 100000 % 10) (b / 100000 % 10) with h1 | h1 | h1
  · exact List.Lex.rel ((digitChar_lt_iff _ (mod10_lt _) _ (mod10_lt _)).mpr h1)
  rotate_left
  · exact absurd hab (by omega)
  rw [h1]
  refine List.Lex.cons ?_
  rcases Nat.lt_trichotomy (a / 10000 % 10) (b / 10000 % 10) with h2 | h2 | h2
  · exact List.Lex.rel ((digitChar_lt_iff _ (mod10_lt _) _ (mod10_lt _)).mpr h2)
  rotate_left
  · exact absurd hab (by omega)
  rw [h2]
  refine List.Lex.cons (List.Lex.cons ?_)
  rcases Nat.lt_trichotomy (a / 1000 % 10) (b / 1000 % 10) with h3 | h3 | h3
  · exact List.Lex.rel ((digitChar_lt_iff _ (mod10_lt _) _ (mod10_lt _)).mpr h3)
  rotate_left
  · exact absurd hab (by omega)
  rw [h3]
  refine List.Lex.cons ?_
  rcases Nat.lt_trichotomy (a / 100 % 10) (b / 100 % 10) with h4 | h4 | h4
  · exact List.Lex.rel ((digitChar_lt_iff _ (mod10_lt _) _ (mod10_lt _)).mpr h4)
  rotate_left
  · exact absurd hab (by omega)
  rw [h4]
  refine List.Lex.cons (List.Lex.cons ?_)
  rcases Nat.lt_trichotomy (a / 10 % 10) (b / 10 % 10) with h5 | h5 | h5
  · exact List.Lex.rel ((digitChar_lt_iff _ (mod10_lt _) _ (mod10_lt _)).mpr h5)
  rotate_left
  · exact absurd hab (by omega)
  rw [h5]
  refine List.Lex.cons ?_
  rcases Nat.lt_trichotomy (a % 10) (b % 10) with h6 | h6 | h6
  · exact List.Lex.rel ((digitChar_lt_iff _ (mod10_lt _) _ (mod10_lt _)).mpr h6)
  · exact absurd hab (by omega)
  · exact absurd hab (by omega)

theorem mrFormat_inj {a b : Nat} (ha : a ≤ 999999) (hb : b ≤ 999999)
    (h : mrFormat a = mrFormat b) : a = b := by
  rcases Nat.lt_trichotomy a b with hab | hab | hab
  · exact absurd (h ▸ mrFormat_lt hb hab) (lt_irrefl _)
  · exact hab
  · exact absurd (h ▸ mrFormat_lt ha hab) (lt_irrefl _)

theorem mrFormat_ne_empty {n : Nat} (h : n ≤ 999999) : mrFormat n ≠ "" := by
  intro he
  have := congrArg String.data he
  rw [mrFormat_data h] at this
  exact absurd this (by simp [String.data])

theorem stripDots_mrFormat {n : Nat} (h : n ≤ 999999) :
    (stripDots (mrFormat n)).data = sixDigits n := by
  show ((mrFormat n).data.filter _) = _
  rw [mrFormat_data h]
  have d1 := digitChar_ne_dot _ (mod10_lt (n / 100000))
  have d2 := digitChar_ne_dot _ (mod10_lt (n / 10000))
  have d3 := digitChar_ne_dot _ (mod10_lt (n / 1000))
  have d4 := digitChar_ne_dot _ (mod10_lt (n / 100))
  have d5 := digitChar_ne_dot _ (mod10_lt (n / 10))
  have d6 := digitChar_ne_dot _ (mod10_lt n)
  simp [List.filter, d1, d2, d3, d4, d5, d6, sixDigits]

theorem jsParseIntNat_stripDots_mrFormat {n : Nat} (h : n ≤ 999999) :
    jsParseIntNat (stripDots (mrFormat n)) = some n := by
  unfold jsParseIntNat
  rw [stripDots_mrFormat h]
  have i1 := digitChar_isDigit _ (mod10_lt (n / 100000))
  have i2 := digitChar_isDigit _ (mod10_lt (n / 10000))
  have i3 := digitChar_isDigit _ (mod10_lt (n / 1000))
  have i4 := digitChar_isDigit _ (mod10_lt (n / 100))
  have i5 := digitChar_isDigit _ (mod10_lt (n / 10))
  have i6 := digitChar_isDigit _ (mod10_lt n)
  have t1 := digitChar_toNat _ (mod10_lt (n / 100000))
  have t2 := digitChar_toNat _ (mod10_lt (n / 10000))
  have t3 := digitChar_toNat _ (mod10_lt (n / 1000))
  have t4 := digitChar_toNat _ (mod10_lt (n / 100))
  have t5 := digitChar_toNat _ (mod10_lt (n / 10))
  have t6 := digitChar_toNat _ (mod10_lt n)
  simp only [sixDigits, jsLeadingDigits, i1, if_pos, List.takeWhile_cons, i2, i3, i4, i5, i6,
    List.takeWhile_nil, List.foldl, t1, t2, t3, t4, t5, t6]
  congr 1
  omega

/-! ## Semantics of the medical-record allocator -/

theorem nextMrNumber_of_no_mr (ps : List Patient)
    (h : ∀ p ∈ ps, p.medical_record_number = none) : nextMrNumber ps = 1 := by
  unfold nextMrNumber lastMrNumber
  have : ps.filterMap (fun p => p.medical_record_number) = [] := by
    rw [List.filterMap_eq_nil_iff]
    exact h
  rw [this]
  rfl

theorem nextMrNumber_eq_max_succ (ps : List Patient) (kmax : Nat)
    (hk2 : kmax ≤ 999999)
    (hmem : mrFormat kmax ∈ ps.filterMap (fun p => p.medical_record_number))
    (hub : ∀ m ∈ ps.filterMap (fun p => p.medical_record_number),
      ∃ k, k ≤ kmax ∧ m = mrFormat k) :
    nextMrNumber ps = kmax + 1 := by
  have hne : ps.filterMap (fun p => p.medical_record_number) ≠ [] := by
    intro h
    rw [h] at hmem
    exact absurd hmem (List.not_mem_nil _)
  have hex : ∃ M, (ps.filterMap (fun p => p.medical_record_number)).max? = some M := by
    cases hmax : (ps.filterMap (fun p => p.medical_record_number)).max? with
    | none => exact absurd (List.max?_eq_none_iff.mp hmax) hne
    | some M => exact ⟨M, rfl⟩
  obtain ⟨M, hM⟩ := hex
  have hMmem : M ∈ ps.filterMap (fun p => p.medical_record_number) :=
    List.max?_mem (fun a b => max_choice a b) hM
  have hall : ∀ b ∈ ps.filterMap (fun p => p.medical_record_number), b ≤ M :=
    (List.max?_le_iff (fun a b c => max_le_iff) hM).mp (le_refl M)
  obtain ⟨kM, hkM, hMeq⟩ := hub M hMmem
  have hle : mrFormat kmax ≤ M := hall _ hmem
  have hkk : kM = kmax := by
    rcases Nat.lt_or_ge kM kmax with hlt | hge
    · have : M < mrFormat kmax := hMeq ▸ mrFormat_lt hk2 hlt
      exact absurd this (not_lt.mpr hle)
    · omega
  subst hkk
  unfold nextMrNumber lastMrNumber
  rw [hM]
  show (if M = "" then 1 else (jsParseIntNat (stripDots M)).getD 0 + 1) = _
  rw [if_neg (by rw [hMeq]; exact mrFormat_ne_empty hk2), hMeq,
    jsParseIntNat_stripDots_mrFormat hk2]
  rfl

/-! ## Claim theorems -/

/-- C9: the recorded `applied_price` of an applied treatment is frozen
at the catalog price at application time: `addSessionTreatments`
snapshots the current catalog price into each created row, and a later
`TreatmentService.update` of the treatment's catalog data never alters
any `CareSessionTreatment` row. -/
theorem c9_applied_price_frozen (st : TreatStore) (dto : AddSessionTreatmentDto)
    (id : String) (udto : UpdateTreatmentDto) :
    ((TreatmentService.addSessionTreatments st dto).store.sessionTreatments
      = st.sessionTreatments ++ dto.treatments.map (fun it =>
          { care_session_id := dto.care_session_id
            treatment_id := it.treatment_id
            quantity := it.quantity
            applied_price := (priceOf st.treatments it.treatment_id).getD 0 }))
    ∧ (TreatmentService.update st id udto).store.sessionTreatments
        = st.sessionTreatments := by
  constructor
  · rfl
  · unfold TreatmentService.update
    rcases hx : jsParseInt id with - | nid
    · rfl
    · rcases hf : st.treatments.find? (fun t => (t.id : Int) == nid) with - | t0 <;>
        simp [hf]

/-- C10: an `addSessionTreatments` call naming a treatment id that is
not in the catalog does not raise a not-found error: the call returns
its normal result and the row for that id is created with
`applied_price` 0. -/
theorem c10_missing_treatment_zero_price (st : TreatStore)
    (dto : AddSessionTreatmentDto) (it : SessionTreatmentItem)
    (hit : it ∈ dto.treatments)
    (hmiss : ∀ t ∈ st.treatments, t.id ≠ it.treatment_id) :
    (∃ rows, (TreatmentService.addSessionTreatments st dto).res = .ok rows)
    ∧ ({ care_session_id := dto.care_session_id
         treatment_id := it.treatment_id
         quantity := it.quantity
         applied_price := 0 } : CareSessionTreatment)
        ∈ (TreatmentService.addSessionTreatments st dto).store.sessionTreatments := by
  have hpr : priceOf st.treatments it.treatment_id = none := by
    unfold priceOf
    rw [List.find?_eq_none.mpr]
    · rfl
    · intro t ht
      simpa using hmiss t ht
  refine ⟨⟨_, rfl⟩, ?_⟩
  show _ ∈ st.sessionTreatments ++ dto.treatments.map _
  refine List.mem_append_right _ ?_
  have := List.mem_map_of_mem (fun it' : SessionTreatmentItem =>
    ({ care_session_id := dto.care_session_id
       treatment_id := it'.treatment_id
       quantity := it'.quantity
       applied_price := (priceOf st.treatments it'.treatment_id).getD 0 } :
      CareSessionTreatment)) hit
  simp only [hpr, Option.getD_none] at this
  exact this

/-- Witness for C10 at a concrete store and request. -/
theorem c10_missing_treatment_zero_price_witness :
    (∃ rows, (TreatmentService.addSessionTreatments ⟨[], []⟩ ⟨5, [⟨7, 2⟩]⟩).res = .ok rows)
    ∧ ({ care_session_id := 5, treatment_id := 7, quantity := 2, applied_price := 0 } :
        CareSessionTreatment)
        ∈ (TreatmentService.addSessionTreatments ⟨[], []⟩ ⟨5, [⟨7, 2⟩]⟩).store.sessionTreatments :=
  c10_missing_treatment_zero_price ⟨[], []⟩ ⟨5, [⟨7, 2⟩]⟩ ⟨7, 2⟩
    (by simp) (by simp)

/-- C7: the waiting-queue snapshot contains exactly the sessions whose
status is `WAITING_CONSULTATION`, sorted by `created_at` ascending, and
`getWaitingQueuesData` is their `(id, doctor, queue_number, room)`
projection. -/
theorem c7_waiting_queue_sorted (st : Store) :
    (waitingSessions st).Perm
      (st.sessions.filter (fun s => s.status == .WAITING_CONSULTATION))
    ∧ (waitingSessions st).Pairwise (fun a b => a.created_at ≤ b.created_at)
    ∧ (∀ s ∈ waitingSessions st, s.status = .WAITING_CONSULTATION)
    ∧ QueueService.getWaitingQueuesData st
        = (waitingSessions st).map (fun s => (s.id, s.doctor_id, s.queue_number, s.room_id)) := by
  refine ⟨List.mergeSort_perm _ _, ?_, ?_, rfl⟩
  · have h := @List.sorted_mergeSort CareSession
      (fun a b : CareSession => decide (a.created_at ≤ b.created_at))
      (fun a b c hab hbc => by
        simp only [decide_eq_true_eq] at *
        omega)
      (fun a b => by
        simp only [Bool.or_eq_true, decide_eq_true_eq]
        omega)
      (st.sessions.filter (fun s => s.status == .WAITING_CONSULTATION))
    exact h.imp (fun hab => by simpa using hab)
  · intro s hs
    have hmem : s ∈ st.sessions.filter (fun s => s.status == .WAITING_CONSULTATION) :=
      (List.mergeSort_perm _ _).subset hs
    have := (List.mem_filter.mp hmem).2
    simpa using this

/-- C6: an `update` whose id parses to a number matching no existing
session returns the not-found error, publishes nothing, and leaves the
store unchanged. -/
theorem c6_update_not_found (gwFail : Bool) (st : Store) (id : String)
    (dto : UpdateQueueDto) (nid : Int)
    (hid : jsParseInt id = some nid)
    (hnone : ∀ s ∈ st.sessions, (s.id : Int) ≠ nid) :
    QueueService.update gwFail st id dto
      = ⟨.error (.http "Data pelayanan tidak ditemukan!" 404), st, [], []⟩ := by
  have hfind : st.sessions.find? (fun s => ((s.id : Int) == nid)) = none :=
    List.find?_eq_none.mpr (fun s hs => by simpa using hnone s hs)
  unfold QueueService.update
  simp only [hid, hfind]

/-- Witness for C6 at a concrete store and id. -/
theorem c6_update_not_found_witness :
    QueueService.update false ⟨[], [], 1, 1⟩ "7" {}
      = ⟨.error (.http "Data pelayanan tidak ditemukan!" 404), ⟨[], [], 1, 1⟩, [], []⟩ :=
  c6_update_not_found false ⟨[], [], 1, 1⟩ "7" {} 7 (by rfl) (by simp)

/-! ## Helper lemmas on the service branches -/

theorem emitWaiting_events (g : Bool) (x : List (Nat × String × String × Nat)) :
    (QueueGateway.emitWaitingQueueUpdate g x).1 = [Event.waitingQueue x] := by
  cases g <;> rfl

theorem emitCalled_events (g : Bool) (i : Nat) (q : String) :
    (QueueGateway.emitCalledQueueUpdate g i q).1 = [Event.calledQueue i q] := by
  cases g <;> rfl

theorem patientStep_error {f : DbFail} {st : Store} {dto : AddQueueDto} {msg : String}
    (h : patientStep f st dto = .error msg) : f.patientCreate = some msg := by
  unfold patientStep at h
  by_cases hc : (dto.patient_id.isNone && dto.patient_data.isSome) = true
  · rw [if_pos hc] at h
    split at h
    next m heq =>
      simp only [Except.error.injEq] at h
      rw [heq, h]
    next heq =>
      exact absurd h (by simp)
  · rw [if_neg hc] at h
    exact absurd h (by simp)

theorem patientStep_ok_sessions {f : DbFail} {st : Store} {dto : AddQueueDto}
    {pid : Option Nat} {st₁ : Store}
    (h : patientStep f st dto = .ok (pid, st₁)) :
    st₁.sessions = st.sessions ∧ st₁.nextSessionId = st.nextSessionId := by
  unfold patientStep at h
  by_cases hc : (dto.patient_id.isNone && dto.patient_data.isSome) = true
  · rw [if_pos hc] at h
    split at h
    next m heq =>
      exact absurd h (by simp)
    next heq =>
      simp only [Except.ok.injEq, Prod.mk.injEq] at h
      rw [← h.2]
      exact ⟨rfl, rfl⟩
  · rw [if_neg hc] at h
    simp only [Except.ok.injEq, Prod.mk.injEq] at h
    rw [← h.2]
    exact ⟨rfl, rfl⟩

theorem generateQueueNumber_error {f : DbFail} {st : Store} {now : Nat} {msg : String}
    (h : QueueService.generateQueueNumber f st now = .error msg) :
    f.countSessions = some msg ∨ msg = "Queue limit exceeded for today" := by
  unfold QueueService.generateQueueNumber at h
  split at h
  next m heq =>
    simp only [Except.error.injEq] at h
    exact Or.inl (by rw [heq, h])
  next heq =>
    have h2 : (if countToday st now + 1 > 999 then
        (Except.error "Queue limit exceeded for today" : Except String String)
      else .ok (fmtQueueNumber (countToday st now + 1))) = .error msg := h
    split at h2
    next hcap =>
      simp only [Except.error.injEq] at h2
      exact Or.inr h2.symm
    next hcap =>
      exact absurd h2 (by simp)

theorem generateQueueNumber_ok {f : DbFail} {st : Store} {now : Nat}
    (hc : f.countSessions = none) (hcap : countToday st now + 1 ≤ 999) :
    QueueService.generateQueueNumber f st now = .ok (fmtQueueNumber (countToday st now + 1)) := by
  unfold QueueService.generateQueueNumber
  rw [hc]
  exact if_neg (by omega)

/-- C3: a successful transition publishes exactly one waiting-queue
snapshot, and publishes exactly one called-queue event carrying the
session id and queue number when the resulting status is
`IN_CONSULTATION`, and none otherwise. -/
theorem c3_transition_publishes (gwFail : Bool) (st : Store) (id : String)
    (dto : UpdateQueueDto) (s : CareSession)
    (hok : (QueueService.update gwFail st id dto).res = .ok s) :
    ((QueueService.update gwFail st id dto).events.filter isWaitingEvent).length = 1
    ∧ ((QueueService.update gwFail st id dto).events.filter isCalledEvent
        = if s.status = .IN_CONSULTATION then [.calledQueue s.id s.queue_number] else []) := by
  rcases hp : jsParseInt id with - | nid
  · simp [QueueService.update, hp] at hok
  rcases hf : st.sessions.find? (fun t => ((t.id : Int) == nid)) with - | s0
  · simp [QueueService.update, hp, hf] at hok
  have hs : applyUpdateDto s0 dto = s := by
    simpa [QueueService.update, hp, hf] using hok
  by_cases hst : (applyUpdateDto s0 dto).status = .IN_CONSULTATION
  · constructor
    · simp [QueueService.update, hp, hf, emitWaiting_events, emitCalled_events, hst,
        isWaitingEvent, isCalledEvent]
    · rw [← hs]
      simp [QueueService.update, hp, hf, emitWaiting_events, emitCalled_events, hst,
        isWaitingEvent, isCalledEvent]
  · constructor
    · simp [QueueService.update, hp, hf, emitWaiting_events, emitCalled_events, hst,
        isWaitingEvent, isCalledEvent]
    · rw [← hs]
      simp [QueueService.update, hp, hf, emitWaiting_events, emitCalled_events, hst,
        isWaitingEvent, isCalledEvent]

/-- Witness for C3 at a concrete store and transition. -/
theorem c3_transition_publishes_witness :
    ((QueueService.update false
        ⟨[⟨3, "U001", .WAITING_CONSULTATION, "d", 1, none, "c", none, 0⟩], [], 4, 1⟩
        "3" { status := some .IN_CONSULTATION }).events.filter isWaitingEvent).length = 1
    ∧ ((QueueService.update false
        ⟨[⟨3, "U001", .WAITING_CONSULTATION, "d", 1, none, "c", none, 0⟩], [], 4, 1⟩
        "3" { status := some .IN_CONSULTATION }).events.filter isCalledEvent
        = if (⟨3, "U001", .IN_CONSULTATION, "d", 1, none, "c", none, 0⟩ : CareSession).status
            = .IN_CONSULTATION
          then [.calledQueue 3 "U001"] else []) :=
  c3_transition_publishes false
    ⟨[⟨3, "U001", .WAITING_CONSULTATION, "d", 1, none, "c", none, 0⟩], [], 4, 1⟩
    "3" { status := some .IN_CONSULTATION }
    ⟨3, "U001", .IN_CONSULTATION, "d", 1, none, "c", none, 0⟩ (by rfl)

/-- C4: a failure of the broadcaster transport (`gwFail`) never changes
the result, the resulting store, or even the attempted publishes of a
create or a transition call: it is logged and swallowed, so no error
propagates to the caller. -/
theorem c4_publish_failure_swallowed :
    (∀ (g : Bool) (f : DbFail) (st : Store) (now : Nat) (dto : AddQueueDto),
      (QueueService.add g f st now dto).res = (QueueService.add false f st now dto).res
      ∧ (QueueService.add g f st now dto).store = (QueueService.add false f st now dto).store
      ∧ (QueueService.add g f st now dto).events = (QueueService.add false f st now dto).events)
    ∧ (∀ (g : Bool) (st : Store) (id : String) (dto : UpdateQueueDto),
      (QueueService.update g st id dto).res = (QueueService.update false st id dto).res
      ∧ (QueueService.update g st id dto).store = (QueueService.update false st id dto).store
      ∧ (QueueService.update g st id dto).events = (QueueService.update false st id dto).events) := by
  constructor
  · intro g f st now dto
    rcases hps : patientStep f st dto with msg | ⟨pid, st₁⟩
    · simp [QueueService.add, hps]
    · rcases hq : QueueService.generateQueueNumber f st₁ now with msg | qn
      · simp [QueueService.add, hps, hq]
      · rcases hsc : f.sessionCreate with - | msg
        · simp [QueueService.add, hps, hq, hsc, emitWaiting_events]
        · simp [QueueService.add, hps, hq, hsc]
  · intro g st id dto
    rcases hp : jsParseInt id with - | nid
    · simp [QueueService.update, hp]
    · rcases hf : st.sessions.find? (fun t => ((t.id : Int) == nid)) with - | s0
      · simp [QueueService.update, hp, hf]
      · by_cases hst : (applyUpdateDto s0 dto).status = .IN_CONSULTATION
        · simp [QueueService.update, hp, hf, hst, emitWaiting_events, emitCalled_events]
        · simp [QueueService.update, hp, hf, hst, emitWaiting_events, emitCalled_events]

/-- C5: a failing create is reported as an `HttpException` with status
400 whose message is the underlying error message, and no session row
is persisted by the failed call. -/
theorem c5_create_atomic (g : Bool) (f : DbFail) (st : Store) (now : Nat)
    (dto : AddQueueDto) (e : SvcError)
    (h : (QueueService.add g f st now dto).res = .error e) :
    (∃ msg, e = .http msg 400
      ∧ (f.patientCreate = some msg ∨ f.countSessions = some msg
         ∨ msg = "Queue limit exceeded for today" ∨ f.sessionCreate = some msg))
    ∧ (QueueService.add g f st now dto).store.sessions = st.sessions := by
  rcases hps : patientStep f st dto with msg | ⟨pid, st₁⟩
  · simp only [QueueService.add, hps, Except.error.injEq] at h
    refine ⟨⟨msg, h.symm, Or.inl (patientStep_error hps)⟩, ?_⟩
    simp [QueueService.add, hps]
  · have hsess := (patientStep_ok_sessions hps).1
    rcases hq : QueueService.generateQueueNumber f st₁ now with msg | qn
    · simp only [QueueService.add, hps, hq, Except.error.injEq] at h
      refine ⟨⟨msg, h.symm, ?_⟩, ?_⟩
      · rcases generateQueueNumber_error hq with h1 | h1
        · exact Or.inr (Or.inl h1)
        · exact Or.inr (Or.inr (Or.inl h1))
      · simp [QueueService.add, hps, hq, hsess]
    · rcases hsc : f.sessionCreate with - | msg
      · simp [QueueService.add, hps, hq, hsc] at h
      · simp only [QueueService.add, hps, hq, hsc, Except.error.injEq] at h
        refine ⟨⟨msg, h.symm, Or.inr (Or.inr (Or.inr rfl))⟩, ?_⟩
        simp [QueueService.add, hps, hq, hsc, hsess]

/-- Witness for C5: a create whose session insert fails with message
`boom` is reported as a 400 with that message and persists no session. -/
theorem c5_create_atomic_witness :
    (∃ msg, SvcError.http "boom" 400 = .http msg 400
      ∧ (({ sessionCreate := some "boom" } : DbFail).patientCreate = some msg
         ∨ ({ sessionCreate := some "boom" } : DbFail).countSessions = some msg
         ∨ msg = "Queue limit exceeded for today"
         ∨ ({ sessionCreate := some "boom" } : DbFail).sessionCreate = some msg))
    ∧ (QueueService.add false { sessionCreate := some "boom" } ⟨[], [], 1, 1⟩ 5
        ⟨"d", 1, "c", none, none⟩).store.sessions = (⟨[], [], 1, 1⟩ : Store).sessions :=
  c5_create_atomic false { sessionCreate := some "boom" } ⟨[], [], 1, 1⟩ 5
    ⟨"d", 1, "c", none, none⟩ (.http "boom" 400) (by rfl)

/-! ## Sequential same-day creates (C1) -/

theorem countToday_eq_countWindow (st : Store) (now : Nat) :
    countToday st now = countWindow st (startOfDay now) := rfl

theorem patientStep_none' (st : Store) (dto : AddQueueDto) :
    ∃ pid st₁, patientStep DbFail.none' st dto = .ok (pid, st₁)
      ∧ st₁.sessions = st.sessions ∧ st₁.nextSessionId = st.nextSessionId := by
  unfold patientStep
  by_cases hc : (dto.patient_id.isNone && dto.patient_data.isSome) = true
  · rw [if_pos hc]
    exact ⟨some st.nextPatientId, _, rfl, rfl, rfl⟩
  · rw [if_neg hc]
    exact ⟨dto.patient_id, st, rfl, rfl, rfl⟩

theorem countToday_sessions_eq {st st' : Store} (now : Nat)
    (h : st'.sessions = st.sessions) : countToday st' now = countToday st now := by
  unfold countToday
  rw [h]

/-- A create under the all-succeeding persistence layer, below daily
capacity: it succeeds, assigns the count-plus-one queue number, and
appends exactly one session stamped `now`. -/
theorem add_none'_ok (g : Bool) (st : Store) (now : Nat) (dto : AddQueueDto)
    (hcap : countToday st now + 1 ≤ 999) :
    ∃ s, (QueueService.add g DbFail.none' st now dto).res = .ok s
      ∧ s.queue_number = fmtQueueNumber (countToday st now + 1)
      ∧ s.created_at = now
      ∧ (QueueService.add g DbFail.none' st now dto).store.sessions
          = st.sessions ++ [s] := by
  obtain ⟨pid, st₁, hps, hsess, -⟩ := patientStep_none' st dto
  have hq : QueueService.generateQueueNumber DbFail.none' st₁ now
      = .ok (fmtQueueNumber (countToday st now + 1)) := by
    rw [generateQueueNumber_ok rfl (by rw [countToday_sessions_eq now hsess]; omega)]
    rw [countToday_sessions_eq now hsess]
  refine ⟨{ id := st₁.nextSessionId
            queue_number := fmtQueueNumber (countToday st now + 1)
            status := .WAITING_CONSULTATION
            doctor_id := dto.doctor_id
            room_id := dto.room_id
            patient_id := pid
            complaints := dto.complaints
            diagnosis := none
            created_at := now }, ?_, rfl, rfl, ?_⟩
  · simp [QueueService.add, hps, hq, show DbFail.none'.sessionCreate = none from rfl]
  · simp [QueueService.add, hps, hq, hsess, show DbFail.none'.sessionCreate = none from rfl]

theorem window_of_startOfDay {t d : Nat} (h : startOfDay t = d) :
    d ≤ t ∧ t ≤ d + (msPerDay - 1) := by
  unfold startOfDay msPerDay at *
  omega

theorem countWindow_snoc {st st' : Store} {d : Nat} {s : CareSession}
    (h : st'.sessions = st.sessions ++ [s])
    (hin : d ≤ s.created_at ∧ s.created_at ≤ d + (msPerDay - 1)) :
    countWindow st' d = countWindow st d + 1 := by
  unfold countWindow
  rw [h, List.filter_append]
  simp [hin.1, hin.2]

/-- The core induction for C1: starting from `k` sessions already
created in day `d`, a strictly sequential list of same-day creates is
numbered `k+1, k+2, ...` with no failure, as long as capacity is not
reached. -/
theorem runCreates_spec : ∀ (calls : List (AddQueueDto × Nat)) (st : Store) (d k : Nat),
    (∀ c ∈ calls, startOfDay c.2 = d) → countWindow st d = k →
    k + calls.length ≤ 999 →
    (runCreates st calls).1
      = (List.range calls.length).map (fun i => .ok (fmtQueueNumber (k + i + 1)))
  | [], _, _, _, _, _, _ => by simp [runCreates]
  | (dto, t) :: rest, st, d, k, hday, hcount, hcap => by
    have ht : startOfDay t = d := hday (dto, t) (List.mem_cons_self _ _)
    have hcapt : countToday st t + 1 ≤ 999 := by
      rw [countToday_eq_countWindow, ht, hcount]
      simp at hcap
      omega
    obtain ⟨s, hres, hqn, hcreated, hsess⟩ := add_none'_ok false st t dto hcapt
    have hkt : countToday st t = k := by rw [countToday_eq_countWindow, ht, hcount]
    have hcount' : countWindow (QueueService.add false DbFail.none' st t dto).store d
        = k + 1 := by
      rw [countWindow_snoc hsess (hcreated ▸ window_of_startOfDay ht), hcount]
    have ih := runCreates_spec rest (QueueService.add false DbFail.none' st t dto).store d (k + 1)
      (fun c hc => hday c (List.mem_cons_of_mem _ hc)) hcount'
      (by simp at hcap ⊢; omega)
    show ((QueueService.add false DbFail.none' st t dto).res.map (fun s => s.queue_number))
        :: (runCreates (QueueService.add false DbFail.none' st t dto).store rest).1
      = _
    rw [hres, ih]
    show (Except.ok s.queue_number) :: _ = _
    rw [hqn, hkt]
    simp only [List.length_cons]
    rw [List.range_succ_eq_map, List.map_cons, List.map_map]
    congr 1
    apply List.map_congr_left
    intro a ha
    simp only [Function.comp_apply]
    congr 2
    omega

theorem nodup_queue_numbers (N : Nat) (hN : N ≤ 999) :
    ((List.range N).map
      (fun i => (Except.ok (fmtQueueNumber (i + 1)) : Except SvcError String))).Nodup := by
  refine List.Nodup.map_on ?_ (List.nodup_range N)
  intro i hi j hj hij
  simp only [Except.ok.injEq] at hij
  simp only [List.mem_range] at hi hj
  have := fmtQueueNumber_inj (m := i + 1) (n := j + 1) (by omega) (by omega) hij
  omega

theorem generateQueueNumber_cap {f : DbFail} {st : Store} {now : Nat}
    (hc : f.countSessions = none) (hcap : countToday st now + 1 > 999) :
    QueueService.generateQueueNumber f st now = .error "Queue limit exceeded for today" := by
  unfold QueueService.generateQueueNumber
  rw [hc]
  exact if_pos hcap

/-- C1: a strictly sequential list of same-day creates starting from a
day with no sessions is numbered `U001`, `U002`, ... with no failure,
no gap and no repeat; and a create attempted when 999 sessions already
exist in the day fails with the capacity error as a 400. -/
theorem c1_sequential_daily_numbering :
    (∀ (calls : List (AddQueueDto × Nat)) (st : Store) (d : Nat),
      (∀ c ∈ calls, startOfDay c.2 = d) → countWindow st d = 0 → calls.length ≤ 999 →
      (runCreates st calls).1
        = (List.range calls.length).map (fun i => .ok (fmtQueueNumber (i + 1)))
      ∧ (runCreates st calls).1.Nodup)
    ∧ (∀ (g : Bool) (st : Store) (t : Nat) (dto : AddQueueDto),
      countWindow st (startOfDay t) = 999 →
      (QueueService.add g DbFail.none' st t dto).res
        = .error (.http "Queue limit exceeded for today" 400)) := by
  constructor
  · intro calls st d hday hzero hlen
    have hrun := runCreates_spec calls st d 0 hday hzero (by omega)
    have heq : (runCreates st calls).1
        = (List.range calls.length).map (fun i => .ok (fmtQueueNumber (i + 1))) := by
      rw [hrun]
      apply List.map_congr_left
      intro i hi
      congr 2
      omega
    refine ⟨heq, ?_⟩
    rw [heq]
    exact nodup_queue_numbers calls.length hlen
  · intro g st t dto hfull
    obtain ⟨pid, st₁, hps, hsess, -⟩ := patientStep_none' st dto
    have hq := @generateQueueNumber_cap DbFail.none' st₁ t rfl
      (by rw [countToday_sessions_eq t hsess, countToday_eq_countWindow, hfull]; omega)
    simp [QueueService.add, hps, hq]

set_option maxRecDepth 40000 in
/-- Witness for C1: two same-day creates from an empty store are
`U001`, `U002` with no repeat, and a create on a day with 999 existing
sessions fails with the capacity error. -/
theorem c1_sequential_daily_numbering_witness :
    ((runCreates ⟨[], [], 1, 1⟩
        [(⟨"d", 1, "c", none, none⟩, 3), (⟨"d", 1, "c", none, none⟩, 4)]).1
      = (List.range 2).map (fun i => .ok (fmtQueueNumber (i + 1)))
      ∧ (runCreates ⟨[], [], 1, 1⟩
        [(⟨"d", 1, "c", none, none⟩, 3), (⟨"d", 1, "c", none, none⟩, 4)]).1.Nodup)
    ∧ (QueueService.add false DbFail.none'
        ⟨List.replicate 999 ⟨1, "U001", .WAITING_CONSULTATION, "d", 1, none, "c", none, 0⟩,
         [], 1000, 1⟩ 5 ⟨"d", 1, "c", none, none⟩).res
      = .error (.http "Queue limit exceeded for today" 400) :=
  ⟨c1_sequential_daily_numbering.1
      [(⟨"d", 1, "c", none, none⟩, 3), (⟨"d", 1, "c", none, none⟩, 4)]
      ⟨[], [], 1, 1⟩ 0 (by decide) (by rfl) (by decide),
   c1_sequential_daily_numbering.2 false
      ⟨List.replicate 999 ⟨1, "U001", .WAITING_CONSULTATION, "d", 1, none, "c", none, 0⟩,
       [], 1000, 1⟩ 5 ⟨"d", 1, "c", none, none⟩ (by rfl)⟩

/-- C8: the medical-record formatting maps 1 to `00.00.01` and 123456
to `12.34.56`; stripping the separators and parsing recovers the
number; allocation starts at 1 when no patient has a number, and
otherwise yields the numeric value of the greatest assigned number
plus one. -/
theorem c8_mr_format_and_allocation :
    mrFormat 1 = "00.00.01"
    ∧ mrFormat 123456 = "12.34.56"
    ∧ (∀ n : Nat, n ≤ 999999 → jsParseIntNat (stripDots (mrFormat n)) = some n)
    ∧ (∀ ps : List Patient, (∀ p ∈ ps, p.medical_record_number = none) →
        nextMrNumber ps = 1)
    ∧ (∀ (ps : List Patient) (kmax : Nat), kmax ≤ 999999 →
        mrFormat kmax ∈ ps.filterMap (fun p => p.medical_record_number) →
        (∀ m ∈ ps.filterMap (fun p => p.medical_record_number),
          ∃ k, k ≤ kmax ∧ m = mrFormat k) →
        nextMrNumber ps = kmax + 1) :=
  ⟨rfl, rfl, fun _ hn => jsParseIntNat_stripDots_mrFormat hn,
   nextMrNumber_of_no_mr, nextMrNumber_eq_max_succ⟩

/-- Witness for C8: parsing back `12.34.56`, allocation from an empty
record set, and allocation past an existing greatest number `00.00.07`. -/
theorem c8_mr_format_and_allocation_witness :
    jsParseIntNat (stripDots (mrFormat 123456)) = some 123456
    ∧ nextMrNumber [⟨1, none⟩] = 1
    ∧ nextMrNumber [⟨1, some (mrFormat 7)⟩] = 7 + 1 :=
  ⟨c8_mr_format_and_allocation.2.2.1 123456 (by norm_num),
   c8_mr_format_and_allocation.2.2.2.1 [⟨1, none⟩] (by simp),
   c8_mr_format_and_allocation.2.2.2.2 [⟨1, some (mrFormat 7)⟩] 7 (by norm_num)
     (by simp)
     (by
       intro m hm
       simp at hm
       exact ⟨7, le_refl 7, hm⟩)⟩

/-- C2: completing a session whose linked patient has no
medical-record number assigns exactly one, strictly greater than every
previously assigned number (all previously assigned numbers being
canonical `NN.NN.NN` values); completing a session for an
already-numbered patient changes no patient record at all. -/
theorem c2_mr_assigned_once_monotone (gwFail : Bool) (st : Store) (id : String)
    (dto : UpdateQueueDto) (nid : Int) (s0 : CareSession) (pid : Nat) (p : Patient)
    (hdto : dto.status = some .COMPLETED)
    (hid : jsParseInt id = some nid)
    (hfind : st.sessions.find? (fun s => ((s.id : Int) == nid)) = some s0)
    (hpid : s0.patient_id = some pid)
    (hpfind : st.patients.find? (fun q => q.id == pid) = some p)
    (hcanon : ∀ q ∈ st.patients, ∀ m, q.medical_record_number = some m →
        ∃ k, 1 ≤ k ∧ k ≤ 999998 ∧ m = mrFormat k) :
    (p.medical_record_number = none →
      ∃ kNew, 1 ≤ kNew ∧ kNew ≤ 999999
        ∧ (QueueService.update gwFail st id dto).store.patients
            = st.patients.map (fun q =>
                if q.id = pid then
                  { q with medical_record_number := some (mrFormat kNew) }
                else q)
        ∧ (∀ q ∈ st.patients, ∀ m k, q.medical_record_number = some m →
            m = mrFormat k → k ≤ 999999 → k < kNew))
    ∧ (∀ m0, p.medical_record_number = some m0 →
        (QueueService.update gwFail st id dto).store.patients = st.patients) := by
  have hupd : (QueueService.update gwFail st id dto).store.patients
      = (if p.medical_record_number.isNone
         then st.patients.map (fun q =>
           if some q.id == (some pid : Option Nat) then
             { q with medical_record_number := some (mrFormat (nextMrNumber st.patients)) }
           else q)
         else st.patients) := by
    simp [QueueService.update, hid, hfind, hdto, hpid, hpfind, applyUpdateDto]
    by_cases hmm : p.medical_record_number = none <;> simp [hmm]
  constructor
  · intro hmr
    have hmaps : st.patients.map (fun q =>
          if some q.id == (some pid : Option Nat) then
            { q with medical_record_number := some (mrFormat (nextMrNumber st.patients)) }
          else q)
        = st.patients.map (fun q =>
          if q.id = pid then
            { q with medical_record_number := some (mrFormat (nextMrNumber st.patients)) }
          else q) := by
      apply List.map_congr_left
      intro q hq
      by_cases h : q.id = pid <;> simp [h]
    by_cases hLnil : st.patients.filterMap (fun q => q.medical_record_number) = []
    · have hnext : nextMrNumber st.patients = 1 := by
        apply nextMrNumber_of_no_mr
        intro q hq
        rcases hmq : q.medical_record_number with - | m
        · rfl
        · exact absurd (hLnil ▸ List.mem_filterMap.mpr ⟨q, hq, hmq⟩) (List.not_mem_nil m)
      refine ⟨1, le_refl 1, by norm_num, ?_, ?_⟩
      · rw [hupd, if_pos (by rw [hmr]; rfl), hmaps, hnext]
      · intro q hq m k hm hk hkb
        exact absurd (hLnil ▸ List.mem_filterMap.mpr ⟨q, hq, hm⟩) (List.not_mem_nil m)
    · have hex : ∃ M, (st.patients.filterMap (fun q => q.medical_record_number)).max? = some M := by
        cases hmax : (st.patients.filterMap (fun q => q.medical_record_number)).max? with
        | none => exact absurd (List.max?_eq_none_iff.mp hmax) hLnil
        | some M => exact ⟨M, rfl⟩
      obtain ⟨M, hM⟩ := hex
      have hMmem : M ∈ st.patients.filterMap (fun q => q.medical_record_number) :=
        List.max?_mem (fun a b => max_choice a b) hM
      have hall : ∀ b ∈ st.patients.filterMap (fun q => q.medical_record_number), b ≤ M :=
        (List.max?_le_iff (fun a b c => max_le_iff) hM).mp (le_refl M)
      obtain ⟨q0, hq0, hq0m⟩ := List.mem_filterMap.mp hMmem
      obtain ⟨kM, hkM1, hkM2, hkMf⟩ := hcanon q0 hq0 M hq0m
      have hub : ∀ m ∈ st.patients.filterMap (fun q => q.medical_record_number),
          ∃ k, k ≤ kM ∧ m = mrFormat k := by
        intro m hm
        obtain ⟨q1, hq1, hq1m⟩ := List.mem_filterMap.mp hm
        obtain ⟨k1, hk11, hk12, hk1f⟩ := hcanon q1 hq1 m hq1m
        refine ⟨k1, ?_, hk1f⟩
        by_contra hgt
        have : mrFormat kM < mrFormat k1 := mrFormat_lt (by omega) (by omega)
        rw [← hkMf, ← hk1f] at this
        exact absurd this (not_lt.mpr (hall m hm))
      have hnext : nextMrNumber st.patients = kM + 1 :=
        nextMrNumber_eq_max_succ st.patients kM (by omega) (hkMf ▸ hMmem) hub
      refine ⟨kM + 1, by omega, by omega, ?_, ?_⟩
      · rw [hupd, if_pos (by rw [hmr]; rfl), hmaps, hnext]
      · intro q hq m k hm hkfmt hkb
        obtain ⟨k0, hk01, hk02, hk0f⟩ := hcanon q hq m hm
        have hkk0 : k = k0 := mrFormat_inj (by omega) (by omega) (by rw [← hkfmt, ← hk0f])
        obtain ⟨k1, hk1le, hk1f⟩ := hub m (List.mem_filterMap.mpr ⟨q, hq, hm⟩)
        have : k0 = k1 := mrFormat_inj (by omega) (by omega) (by rw [← hk0f, ← hk1f])
        omega
  · intro m0 hm0
    rw [hupd, if_neg (by rw [hm0]; simp)]

/-- Witness for C2: completing session 3 gives patient 2 (no number
yet) the number after the greatest assigned one, and would change
nothing for an already-numbered patient. -/
theorem c2_mr_assigned_once_monotone_witness :
    ((⟨2, none⟩ : Patient).medical_record_number = none →
      ∃ kNew, 1 ≤ kNew ∧ kNew ≤ 999999
        ∧ (QueueService.update false
            ⟨[⟨3, "U001", .WAITING_CONSULTATION, "d", 1, some 2, "c", none, 0⟩],
             [⟨1, some (mrFormat 7)⟩, ⟨2, none⟩], 4, 3⟩
            "3" { status := some .COMPLETED }).store.patients
            = ((⟨[⟨3, "U001", .WAITING_CONSULTATION, "d", 1, some 2, "c", none, 0⟩],
                 [⟨1, some (mrFormat 7)⟩, ⟨2, none⟩], 4, 3⟩ : Store)).patients.map (fun q =>
                if q.id = 2 then
                  { q with medical_record_number := some (mrFormat kNew) }
                else q)
        ∧ (∀ q ∈ ((⟨[⟨3, "U001", .WAITING_CONSULTATION, "d", 1, some 2, "c", none, 0⟩],
                    [⟨1, some (mrFormat 7)⟩, ⟨2, none⟩], 4, 3⟩ : Store)).patients,
            ∀ m k, q.medical_record_number = some m →
            m = mrFormat k → k ≤ 999999 → k < kNew))
    ∧ (∀ m0, (⟨2, none⟩ : Patient).medical_record_number = some m0 →
        (QueueService.update false
            ⟨[⟨3, "U001", .WAITING_CONSULTATION, "d", 1, some 2, "c", none, 0⟩],
             [⟨1, some (mrFormat 7)⟩, ⟨2, none⟩], 4, 3⟩
            "3" { status := some .COMPLETED }).store.patients
          = ((⟨[⟨3, "U001", .WAITING_CONSULTATION, "d", 1, some 2, "c", none, 0⟩],
               [⟨1, some (mrFormat 7)⟩, ⟨2, none⟩], 4, 3⟩ : Store)).patients) :=
  c2_mr_assigned_once_monotone false
    ⟨[⟨3, "U001", .WAITING_CONSULTATION, "d", 1, some 2, "c", none, 0⟩],
     [⟨1, some (mrFormat 7)⟩, ⟨2, none⟩], 4, 3⟩
    "3" { status := some .COMPLETED } 3
    ⟨3, "U001", .WAITING_CONSULTATION, "d", 1, some 2, "c", none, 0⟩ 2 ⟨2, none⟩
    rfl (by rfl) (by rfl) rfl (by rfl)
    (by
      intro q hq m hm
      simp only [List.mem_cons, List.not_mem_nil, or_false] at hq
      rcases hq with hq | hq
      · subst hq
        simp only [Option.some.injEq] at hm
        exact ⟨7, by norm_num, by norm_num, hm.symm⟩
      · subst hq
        exact absurd hm (by simp))
